import Mathlib

/-!
Verification of the ECS task orchestration and lifecycle engine of the
prefect-aws repository (`prefect_aws/ecs.py` and
`prefect_aws/workers/ecs_worker.py`) against its specification.

Python values that flow through the engine (task definitions, task run
requests, API responses) are embedded as the type `JVal`; Python
dictionaries are association lists of string keys in insertion order,
mirroring CPython semantics (updates keep the position of an existing key,
new keys append at the end).  Python `==` on these values is
order-insensitive on dictionaries and identifies `True`/`False` with
`1`/`0`; it is embedded by comparing canonical forms (`canon`).  Fallible
Python code is embedded in `Except PyErr`.
-/

inductive JVal where
  | null : JVal
  | bool (b : Bool) : JVal
  | int (n : Int) : JVal
  | str (s : String) : JVal
  | list (xs : List JVal) : JVal
  | obj (kvs : List (String × JVal)) : JVal

abbrev PyDict := List (String × JVal)

inductive PyErr where
  | indexError : PyErr
  | keyError (k : String) : PyErr
  | typeError (msg : String) : PyErr
  | valueError (msg : String) : PyErr
  | attributeError (attr : String) : PyErr
  | runtimeError (msg : String) : PyErr
  | assertionError (msg : String) : PyErr
deriving DecidableEq

/-- Lookup in a Python dict: `d.get(k)` as `Option`. -/
def dictGet (d : PyDict) (k : String) : Option JVal :=
  match d with
  | [] => none
  | (k', v) :: rest => if k' = k then some v else dictGet rest k

/-- Assignment `d[k] = v`: replaces in place if the key exists, else appends. -/
def dictSet (d : PyDict) (k : String) (v : JVal) : PyDict :=
  match d with
  | [] => [(k, v)]
  | (k', v') :: rest => if k' = k then (k, v) :: rest else (k', v') :: dictSet rest k v

/-- Python `d.setdefault(k, v)`: returns the resulting value and the updated dict. -/
def dictSetdefault (d : PyDict) (k : String) (v : JVal) : JVal × PyDict :=
  match dictGet d k with
  | some w => (w, d)
  | none => (v, d ++ [(k, v)])

/-- Python `d.pop(k, None)`: removes the key if present. -/
def dictPop (d : PyDict) (k : String) : PyDict :=
  match d with
  | [] => []
  | (k', v) :: rest => if k' = k then rest else (k', v) :: dictPop rest k

/-- Python truthiness of a value (`bool(v)`). -/
def pyTruthy : JVal → Bool
  | .null => false
  | .bool b => b
  | .int n => n != 0
  | .str s => s != ""
  | .list xs => !xs.isEmpty
  | .obj kvs => !kvs.isEmpty

/-- Python `str(v)` for the scalar values the engine stringifies. -/
def pyStr : JVal → String
  | .int n => toString n
  | .str s => s
  | .bool b => if b then "True" else "False"
  | .null => "None"
  | .list _ => "<list>"
  | .obj _ => "<dict>"

/-- Python `a or b` where `a` is the result of a `.get` (None when missing):
the left operand wins iff it is truthy. -/
def pyOrV (a : Option JVal) (b : JVal) : JVal :=
  match a with
  | some v => if pyTruthy v then v else b
  | none => b

/-- Character comparison by code point, used to order dict keys canonically. -/
def charLtB (a b : Char) : Bool := a.toNat < b.toNat

def charListLtB : List Char → List Char → Bool
  | [], [] => false
  | [], _ :: _ => true
  | _ :: _, [] => false
  | a :: as, b :: bs => charLtB a b || (a == b && charListLtB as bs)

def keyLtB (a b : String) : Bool := charListLtB a.toList b.toList

def insertPairSorted (p : String × JVal) : PyDict → PyDict
  | [] => [p]
  | q :: rest => if keyLtB p.1 q.1 then p :: q :: rest else q :: insertPairSorted p rest

def sortPairs : PyDict → PyDict
  | [] => []
  | p :: rest => insertPairSorted p (sortPairs rest)

mutual

/-- Canonical form for Python `==`: dict keys sorted, booleans identified with
their integer values (CPython: `True == 1`). -/
def canon : JVal → JVal
  | .null => .null
  | .bool b => .int (if b then 1 else 0)
  | .int n => .int n
  | .str s => .str s
  | .list xs => .list (canonList xs)
  | .obj kvs => .obj (sortPairs (canonPairs kvs))

def canonList : List JVal → List JVal
  | [] => []
  | v :: rest => canon v :: canonList rest

def canonPairs : PyDict → PyDict
  | [] => []
  | (k, v) :: rest => (k, canon v) :: canonPairs rest

end

mutual

/-- Structural equality of embedded values, as a boolean. -/
def jvalBeq : JVal → JVal → Bool
  | .null, .null => true
  | .bool a, .bool b => a == b
  | .int a, .int b => a == b
  | .str a, .str b => a == b
  | .list xs, .list ys => jvalBeqList xs ys
  | .obj a, .obj b => jvalBeqPairs a b
  | _, _ => false

def jvalBeqList : List JVal → List JVal → Bool
  | [], [] => true
  | x :: xs, y :: ys => jvalBeq x y && jvalBeqList xs ys
  | _, _ => false

def jvalBeqPairs : PyDict → PyDict → Bool
  | [], [] => true
  | (k, v) :: xs, (k', v') :: ys => k == k' && jvalBeq v v' && jvalBeqPairs xs ys
  | _, _ => false

end

mutual

theorem jvalBeq_self : ∀ a, jvalBeq a a = true
  | .null => rfl
  | .bool b => by simp [jvalBeq]
  | .int n => by simp [jvalBeq]
  | .str s => by simp [jvalBeq]
  | .list xs => by simpa [jvalBeq] using jvalBeqList_self xs
  | .obj kvs => by simpa [jvalBeq] using jvalBeqPairs_self kvs

theorem jvalBeqList_self : ∀ xs, jvalBeqList xs xs = true
  | [] => rfl
  | x :: xs => by simp [jvalBeqList, jvalBeq_self x, jvalBeqList_self xs]

theorem jvalBeqPairs_self : ∀ kvs, jvalBeqPairs kvs kvs = true
  | [] => rfl
  | (k, v) :: rest => by simp [jvalBeqPairs, jvalBeq_self v, jvalBeqPairs_self rest]

end

/-- Python `a == b` on embedded values. -/
def pyEqB (a b : JVal) : Bool := jvalBeq (canon a) (canon b)

theorem pyEqB_refl (a : JVal) : pyEqB a a = true := jvalBeq_self (canon a)

/-- Substring test `pat in s` on Python strings. -/
def startsWithChars : List Char → List Char → Bool
  | [], _ => true
  | _ :: _, [] => false
  | a :: as, b :: bs => a == b && startsWithChars as bs

def containsChars (pat s : List Char) : Bool :=
  match s with
  | [] => pat.isEmpty
  | _ :: rest => startsWithChars pat s || containsChars pat rest

def strContains (s pat : String) : Bool := containsChars pat.toList s.toList

/-!
## Result Reporter (`ECSTask._watch_task_and_get_result`,
`ECSTask._report_container_status_code`, `prefect_aws/ecs.py`)

`get_container` iterates the container list and returns the first container
whose `"name"` entry equals the requested name; a non-dict entry reached
during the scan raises `AttributeError` (no `.get`).
-/

def getContainer (containers : List JVal) (name : String) : Except PyErr (Option PyDict) :=
  match containers with
  | [] => .ok none
  | .obj kvs :: rest =>
      if pyEqB ((dictGet kvs "name").getD .null) (.str name) then .ok (some kvs)
      else getContainer rest name
  | _ :: _ => .error (.attributeError "get")

/-- Embeds `ECSTask._watch_task_and_get_result` after the final task
description is available: extract the `"prefect"` container (assertion error
when missing), read its `"exitCode"`, and build the result with
`status_code=status_code or -1`. -/
def watchTaskAndGetResult (taskArn : String) (taskContainers : List JVal) :
    Except PyErr (String × JVal) := do
  let pc ← getContainer taskContainers "prefect"
  match pc with
  | none => .error (.assertionError "prefect container missing from task")
  | some kvs =>
      let statusCode := dictGet kvs "exitCode"
      .ok (taskArn, pyOrV statusCode (.int (-1)))

inductive ContainerStatusLog where
  | errorNoExitStatus
  | infoSuccess
  | warningNonZero (v : JVal)

/-- Embeds `ECSTask._report_container_status_code`: the log emitted for the
given container status code (error when None, success info when 0, warning
otherwise). -/
def reportContainerStatusCode (statusCode : Option JVal) : ContainerStatusLog :=
  match statusCode with
  | none => .errorNoExitStatus
  | some v => if pyEqB v (.int 0) then .infoSuccess else .warningNonZero v

/-- Claim C1: the spec states that the sentinel -1 is substituted only when
the orchestration container's exit code is absent, and that an exit code of
0 yields a result status code of 0.  The code computes
`status_code or -1`, and Python's `or` treats 0 as falsy: a reported exit
code of 0 therefore yields the sentinel -1, even though the very same code
path logs "exited successfully" for that exit code and the code's own
comment reserves -1 for a missing exit code.  This exhibits the failing
input. -/
theorem claim_C1_exit_code_zero_becomes_sentinel :
    watchTaskAndGetResult "arn:aws:ecs:us-east-1:task/abc"
        [JVal.obj [("name", JVal.str "prefect"), ("exitCode", JVal.int 0)]]
      = Except.ok ("arn:aws:ecs:us-east-1:task/abc", JVal.int (-1))
    ∧ reportContainerStatusCode (some (JVal.int 0)) = ContainerStatusLog.infoSuccess
    ∧ JVal.int (-1) ≠ JVal.int 0 := by
  refine ⟨rfl, rfl, ?_⟩
  simp

/-!
## Launch failure reporting (`ECSTask._report_task_run_creation_failure`,
`prefect_aws/ecs.py`)

The third branch builds its error message with the f-string interpolation
`{self.execution_role!r}`.  `ECSTask` declares no attribute named
`execution_role` (the field is `execution_role_arn`), so evaluating the
f-string raises `AttributeError` before the `RuntimeError` can be raised.
`ecsTaskFieldNames` lists the fields declared on the `ECSTask` class
together with the fields of its `Infrastructure` base class that this
module uses.
-/

def ecsTaskFieldNames : List String :=
  ["type", "aws_credentials", "task_definition_arn", "task_definition", "image",
   "cpu", "memory", "execution_role_arn", "configure_cloudwatch_logs",
   "stream_output", "launch_type", "vpc_id", "cluster", "env", "task_role_arn",
   "task_start_timeout_seconds", "task_watch_poll_interval",
   "name", "labels", "command"]

def ecsTaskHasAttr (a : String) : Bool := ecsTaskFieldNames.contains a

inductive TaskRunCreationReport where
  | runtimeError (msg : String)
  | attributeError (attr : String)
  | reraisedOriginal
deriving DecidableEq

/-- Embeds `ECSTask._report_task_run_creation_failure`: matches the failure
text of the launch call and re-raises a friendlier error when recognized.
In the CloudWatch-permission branch the message interpolates
`self.execution_role`; attribute lookup on the instance is embedded by
`ecsTaskHasAttr` and raises `AttributeError` when the attribute is not
declared. -/
def reportTaskRunCreationFailure (taskRun : PyDict) (excText : String)
    (launchType : Option String) (configureCloudwatchLogs : Bool) :
    TaskRunCreationReport :=
  if strContains excText "ClusterNotFoundException" then
    .runtimeError ("Failed to run ECS task, cluster '"
      ++ pyStr ((dictGet taskRun "cluster").getD (.str "default"))
      ++ "' not found. Confirm that the cluster is configured in your region.")
  else if strContains excText "No Container Instances" && launchType == some "EC2" then
    .runtimeError ("Failed to run ECS task, cluster '"
      ++ pyStr ((dictGet taskRun "cluster").getD (.str "default"))
      ++ "' does not appear to have any container instances associated with it. "
      ++ "Confirm that you have EC2 container instances available.")
  else if strContains excText "failed to validate logger args"
      && strContains excText "AccessDeniedException"
      && configureCloudwatchLogs then
    if ecsTaskHasAttr "execution_role" then
      .runtimeError ("Failed to run ECS task, the attached execution role does not "
        ++ "appear to have sufficient permissions. Ensure that the execution role "
        ++ "has permissions logs:CreateLogStream, logs:CreateLogGroup, "
        ++ "and logs:PutLogEvents.")
    else .attributeError "execution_role"
  else .reraisedOriginal

/-- Claim C5: the spec states that a launch failure whose text indicates
missing log permissions (while CloudWatch logging is requested) is surfaced
as an error naming logs:CreateLogStream, logs:CreateLogGroup and
logs:PutLogEvents.  On that exact input the code instead crashes with
`AttributeError`: the message interpolates `self.execution_role`, but the
class only declares `execution_role_arn`. -/
theorem claim_C5_logging_permission_branch_raises_attribute_error :
    reportTaskRunCreationFailure []
        "failed to validate logger args: AccessDeniedException: not authorized"
        (some "FARGATE") true
      = TaskRunCreationReport.attributeError "execution_role"
    ∧ ecsTaskHasAttr "execution_role" = false
    ∧ ecsTaskHasAttr "execution_role_arn" = true := ⟨rfl, rfl, rfl⟩

/-!
## Task Definition Cache & Differ (`ECSWorker._task_definitions_equal` and
the cache logic of `ECSWorker.run`, `prefect_aws/workers/ecs_worker.py`)
-/

mutual

/-- Embeds `_drop_empty_keys`: recursively drop keys with falsy values from a
dict; recursion descends into dict values and into dict elements of list
values (only those). The drop decision is taken on the value before its own
keys are dropped, as in the source. -/
def dropEmptyPairs : PyDict → PyDict
  | [] => []
  | (k, v) :: rest =>
      if pyTruthy v then (k, dropEmptyVal v) :: dropEmptyPairs rest
      else dropEmptyPairs rest

def dropEmptyVal : JVal → JVal
  | .obj kvs => .obj (dropEmptyPairs kvs)
  | .list xs => .list (dropEmptyInList xs)
  | v => v

def dropEmptyInList : List JVal → List JVal
  | [] => []
  | .obj kvs :: rest => .obj (dropEmptyPairs kvs) :: dropEmptyInList rest
  | v :: rest => v :: dropEmptyInList rest

end

/-- Embeds the generator `any(container.get("essential") for container in
container_definitions)`: short-circuits at the first truthy value; a
non-dict container reached during the scan raises `AttributeError`. -/
def anyContainerEssential : List JVal → Except PyErr Bool
  | [] => .ok false
  | .obj kvs :: rest =>
      if pyTruthy ((dictGet kvs "essential").getD .null) then .ok true
      else anyContainerEssential rest
  | _ :: _ => .error (.attributeError "get")

/-- Embeds `_set_aws_defaults`: mark the first container essential when no
container is, and default the network mode to bridge.  When no container is
essential, `container_definitions[0]` is indexed unconditionally: an empty
(or absent) container list raises `IndexError`. -/
def setAwsDefaults (td : PyDict) : Except PyErr PyDict := do
  let cds ← (match dictGet td "containerDefinitions" with
    | some (.list xs) => Except.ok xs
    | some _ => Except.error (PyErr.typeError "containerDefinitions is not a list")
    | none => Except.ok [])
  let ess ← anyContainerEssential cds
  let cds' ←
    if ess then Except.ok cds
    else match cds with
      | [] => Except.error PyErr.indexError
      | c :: rest =>
        match c with
        | .obj kvs => Except.ok (JVal.obj (dictSetdefault kvs "essential" (.bool true)).2 :: rest)
        | _ => Except.error (PyErr.attributeError "setdefault")
  -- the in-place mutation of the list is visible in the task definition only
  -- when the key is actually present there (otherwise `.get` made a fresh list)
  let td' := match dictGet td "containerDefinitions" with
    | some _ => dictSet td "containerDefinitions" (.list cds')
    | none => td
  return (dictSetdefault td' "networkMode" (.str "bridge")).2

def ecsPostRegistrationFields : List String :=
  ["compatibilities", "taskDefinitionArn", "revision", "status",
   "requiresAttributes", "registeredAt", "registeredBy", "deregisteredAt"]

def stripPostRegistrationFields (td : PyDict) : PyDict :=
  ecsPostRegistrationFields.foldl (fun d f => dictPop d f) td

/-- Python `==` on operands that are dicts or None. -/
def pyEqOptB (a b : Option JVal) : Bool :=
  match a, b with
  | none, none => true
  | some x, some y => pyEqB x y
  | _, _ => false

/-- Embeds `ECSWorker._task_definitions_equal`: short-circuit on equality,
then on either side being None, then normalize deep copies of both sides
(service defaults, empty-key stripping, post-registration fields) and
compare. -/
def taskDefinitionsEqual (taskdef1 taskdef2 : Option JVal) : Except PyErr Bool := do
  if pyEqOptB taskdef1 taskdef2 then return true
  match taskdef1, taskdef2 with
  | none, _ => return false
  | _, none => return false
  | some t1, some t2 =>
    let k1 ← (match t1 with
      | .obj kvs => Except.ok kvs
      | _ => Except.error (PyErr.attributeError "get"))
    let k2 ← (match t2 with
      | .obj kvs => Except.ok kvs
      | _ => Except.error (PyErr.attributeError "get"))
    let k1 ← setAwsDefaults k1
    let k2 ← setAwsDefaults k2
    let k1 := dropEmptyPairs k1
    let k2 := dropEmptyPairs k2
    let k1 := stripPostRegistrationFields k1
    let k2 := stripPostRegistrationFields k2
    return pyEqB (.obj k1) (.obj k2)

theorem taskDefinitionsEqual_self (t : JVal) :
    taskDefinitionsEqual (some t) (some t) = Except.ok true := by
  simp [taskDefinitionsEqual, pyEqOptB, pyEqB_refl, pure, Except.pure]

/-- Claim C10: the equality check is not total.  For the non-identical pair
`{}` and `{"family": "prefect"}` (first document's containerDefinitions key
absent, hence the scanned container list empty), the default-injection step
indexes the first container and the comparison raises `IndexError` instead
of returning a boolean. -/
theorem claim_C10_equality_check_raises_index_error :
    taskDefinitionsEqual (some (JVal.obj []))
        (some (JVal.obj [("family", JVal.str "prefect")]))
      = Except.error PyErr.indexError
    ∧ pyEqOptB (some (JVal.obj []))
        (some (JVal.obj [("family", JVal.str "prefect")])) = false := ⟨rfl, rfl⟩

/-!
## Task definition registration cache (`ECSWorker.run`, lines 349-398,
`prefect_aws/workers/ecs_worker.py`)

`_TASK_DEFINITION_CACHE : Dict[UUID, str]` maps a deployment id to the
last-registered task definition ARN.  The external client is embedded as a
describe function (`None` = the describe call raised) and a fresh ARN that
`register_task_definition` would return.
-/

abbrev ArnCache := List (String × String)

def cacheGet (c : ArnCache) (k : String) : Option String :=
  match c with
  | [] => none
  | (k', v) :: rest => if k' = k then some v else cacheGet rest k

def cacheSet (c : ArnCache) (k v : String) : ArnCache :=
  match c with
  | [] => [(k, v)]
  | (k', v') :: rest => if k' = k then (k, v) :: rest else (k', v') :: cacheSet rest k v

def cachePop (c : ArnCache) (k : String) : ArnCache :=
  match c with
  | [] => []
  | (k', v) :: rest => if k' = k then rest else (k', v) :: cachePop rest k

theorem cacheGet_cacheSet (c : ArnCache) (k v : String) :
    cacheGet (cacheSet c k v) k = some v := by
  induction c with
  | nil => simp [cacheSet, cacheGet]
  | cons p rest ih =>
      by_cases h : p.1 = k
      · simp [cacheSet, cacheGet, h]
      · simp [cacheSet, cacheGet, h, ih]

/-- Embeds the task-definition resolution portion of `ECSWorker.run`:
cache lookup, validation of a warm entry (retrieve by ARN; on failure evict
using the ARN itself as the pop key, as the source does; on success compare
the retrieved document against itself, since the retrieval overwrote the
`task_definition` variable holding the desired document), registration when
no valid cache entry remains, the launch-type compatibility guard, and the
final cache update.  Returns the number of `register_task_definition` calls
together with the outcome (resolved ARN, final `task_definition` variable,
final cache). -/
def workerResolveTaskDefinitionArn (cache : ArnCache) (deploymentId : String)
    (desired : JVal) (describeTaskDefinition : String → Option JVal)
    (freshArn : String) (taskRunRequest : PyDict) :
    Nat × Except PyErr (String × JVal × ArnCache) :=
  let validated : Except PyErr (Option String × JVal × ArnCache) :=
    match cacheGet cache deploymentId with
    | some arn =>
      if arn != "" then
        match describeTaskDefinition arn with
        | none => .ok (none, desired, cachePop cache arn)
        | some retrieved => do
            let eq ← taskDefinitionsEqual (some retrieved) (some retrieved)
            if eq then pure (some arn, retrieved, cache)
            else pure (none, retrieved, cache)
      else .ok (none, desired, cache)
    | none => .ok (none, desired, cache)
  match validated with
  | .error e => (0, .error e)
  | .ok (cachedArn, taskDefinition, cache') =>
    let (registerCalls, arn) :=
      match cachedArn with
      | none => ((1 : Nat), freshArn)
      | some a => ((0 : Nat), a)
    let launchType := (dictGet taskRunRequest "launchType").getD (.str "FARGATE")
    let compatCheck : Except PyErr Unit :=
      if !pyEqB launchType (.str "EC2") then
        match taskDefinition with
        | .obj kvs =>
          match dictGet kvs "requiresCompatibilities" with
          | none => .error (.keyError "requiresCompatibilities")
          | some (.list compat) =>
              if compat.any (fun v => pyEqB v (.str "FARGATE")) then .ok ()
              else .error (.runtimeError
                ("Task definition does not have 'FARGATE' in 'requiresCompatibilities' "
                  ++ "and cannot be used with launch type " ++ pyStr launchType))
          | some _ => .error (.typeError "requiresCompatibilities is not iterable")
        | _ => .error (.typeError "task definition is not subscriptable")
      else .ok ()
    match compatCheck with
    | .error e => (registerCalls, .error e)
    | .ok _ => (registerCalls, .ok (arn, taskDefinition, cacheSet cache' deploymentId arn))

/-- Desired task definition used as the concrete failing input for claim C3:
a freshly prepared document whose image was changed. -/
def c3DesiredDefinition : JVal :=
  .obj [("containerDefinitions",
          .list [.obj [("name", .str "prefect"), ("image", .str "repo/image:new"),
                       ("essential", .bool true)]]),
        ("family", .str "prefect"),
        ("networkMode", .str "awsvpc"),
        ("requiresCompatibilities", .list [.str "FARGATE"])]

/-- Remote task definition stored under the cached ARN for claim C3: same
document except for an older image, so it is not semantically equal to the
desired one. -/
def c3RemoteDefinition : JVal :=
  .obj [("containerDefinitions",
          .list [.obj [("name", .str "prefect"), ("image", .str "repo/image:old"),
                       ("essential", .bool true)]]),
        ("family", .str "prefect"),
        ("networkMode", .str "awsvpc"),
        ("requiresCompatibilities", .list [.str "FARGATE"])]

/-- Claim C3: the spec states that a warm cache entry whose remote document
is retrievable but not semantically equal to the freshly prepared desired
definition leads to exactly one new registration call and a cache update.
In the code the retrieval overwrites the variable holding the desired
definition, so `_task_definitions_equal` is called with the retrieved
document on both sides and always returns True: on this failing input the
remote document differs from the desired one under the code's own equality
normalization, yet zero registration calls are issued, the stale cached ARN
is reused, and the cache is left pointing at it. -/
theorem claim_C3_changed_definition_not_reregistered :
    taskDefinitionsEqual (some c3RemoteDefinition) (some c3DesiredDefinition)
      = Except.ok false
    ∧ workerResolveTaskDefinitionArn [("deployment-1", "arn:aws:ecs:task-definition/prefect:1")]
        "deployment-1" c3DesiredDefinition
        (fun a => if a = "arn:aws:ecs:task-definition/prefect:1"
                  then some c3RemoteDefinition else none)
        "arn:aws:ecs:task-definition/prefect:2" []
      = (0, Except.ok ("arn:aws:ecs:task-definition/prefect:1", c3RemoteDefinition,
            [("deployment-1", "arn:aws:ecs:task-definition/prefect:1")])) := ⟨rfl, rfl⟩

/-- Claim C4: two successive invocations for the same deployment key with an
unchanged desired definition.  The first invocation starts from a cold
cache and completes: it issues exactly one registration call and stores the
returned ARN under the key.  The second invocation finds the warm entry and
retrieves a document through it: it issues zero registration calls and
resolves to the cached ARN. -/
theorem claim_C4_idempotent_reuse
    (cache : ArnCache) (key : String) (desired rtd : JVal)
    (describe1 describe2 : String → Option JVal)
    (arn1 arn2 : String) (trr : PyDict)
    (n1 n2 : Nat) (a1 a2 : String) (td1 td2 : JVal) (cache1 cache2 : ArnCache)
    (hCold : cacheGet cache key = none)
    (h1 : workerResolveTaskDefinitionArn cache key desired describe1 arn1 trr
            = (n1, Except.ok (a1, td1, cache1)))
    (hFresh : arn1 ≠ "")
    (hRet : describe2 arn1 = some rtd)
    (h2 : workerResolveTaskDefinitionArn cache1 key desired describe2 arn2 trr
            = (n2, Except.ok (a2, td2, cache2))) :
    n1 = 1 ∧ a1 = arn1 ∧ cache1 = cacheSet cache key arn1 ∧ n2 = 0 ∧ a2 = arn1 := by
  unfold workerResolveTaskDefinitionArn at h1 h2
  rw [hCold] at h1
  simp only [] at h1
  split at h1
  · simp at h1
  · rw [Prod.mk.injEq, Except.ok.injEq, Prod.mk.injEq, Prod.mk.injEq] at h1
    obtain ⟨hn1, ha1, htd1, hc1⟩ := h1
    subst hc1
    rw [cacheGet_cacheSet] at h2
    have hb : (arn1 != "") = true := by simpa [bne_iff_ne] using hFresh
    simp only [hb, if_true, hRet, taskDefinitionsEqual_self, Except.bind, bind, pure,
      Except.pure] at h2
    split at h2
    · simp at h2
    · rw [Prod.mk.injEq, Except.ok.injEq, Prod.mk.injEq, Prod.mk.injEq] at h2
      obtain ⟨hn2, ha2, htd2, hc2⟩ := h2
      exact ⟨hn1.symm, ha1.symm, rfl, hn2.symm, ha2.symm⟩

/-- Witness for claim C4 at a concrete pair of invocations. -/
theorem claim_C4_idempotent_reuse_witness :
    (1 : Nat) = 1 ∧ "arn:1" = "arn:1"
    ∧ [("dep", "arn:1")] = cacheSet [] "dep" "arn:1"
    ∧ (0 : Nat) = 0 ∧ "arn:1" = "arn:1" :=
  claim_C4_idempotent_reuse [] "dep" c3DesiredDefinition c3DesiredDefinition
    (fun _ => none) (fun a => if a = "arn:1" then some c3DesiredDefinition else none)
    "arn:1" "arn:2" [] 1 0 "arn:1" "arn:1" c3DesiredDefinition c3DesiredDefinition
    [("dep", "arn:1")] [("dep", "arn:1")] rfl rfl (by decide) rfl rfl

/-!
## Order of events in `ECSTask.run` (`prefect_aws/ecs.py`)

`ECSTask.run` first runs `_create_task_and_wait_for_start` (register the
task definition when needed, issue the `run_task` call, then poll inside
`_wait_for_task_start` until RUNNING), only then calls
`task_status.started(task_arn)`, and finally runs
`_watch_task_and_get_result` (poll until STOPPED, build the result).  The
trace below records these externally visible events in the order the source
performs them; `startPolls` and `finishPolls` are the number of
`describe_tasks` polls each wait happened to need.
-/

inductive RunEvent where
  | registerTaskDefinition
  | runTaskCall
  | poll (untilStatus : String)
  | reportStarted (arn : String)
  | reportResult (arn : String)
deriving DecidableEq

def createTaskAndWaitForStartEvents (registered : Bool) (startPolls : Nat) :
    List RunEvent :=
  (if registered then [.registerTaskDefinition] else []) ++ [.runTaskCall]
    ++ List.replicate startPolls (.poll "RUNNING")

def watchTaskAndGetResultEvents (arn : String) (finishPolls : Nat) : List RunEvent :=
  List.replicate finishPolls (.poll "STOPPED") ++ [.reportResult arn]

def ecsTaskRunEvents (arn : String) (registered : Bool)
    (startPolls finishPolls : Nat) (hasTaskStatus : Bool) : List RunEvent :=
  createTaskAndWaitForStartEvents registered startPolls
    ++ (if hasTaskStatus then [.reportStarted arn] else [])
    ++ watchTaskAndGetResultEvents arn finishPolls

theorem get?_append_elim {α : Type} {xs ys : List α} {i : Nat} {a : α}
    (h : (xs ++ ys).get? i = some a) (ha : a ∉ xs) :
    xs.length ≤ i ∧ ys.get? (i - xs.length) = some a := by
  rcases Nat.lt_or_ge i xs.length with hlt | hge
  · exact absurd (List.get?_mem ((List.get?_append hlt).symm.trans h)) ha
  · exact ⟨hge, by rwa [List.get?_append_right hge] at h⟩

theorem get?_lt_of_not_mem_right {α : Type} {xs ys : List α} {i : Nat} {a : α}
    (h : (xs ++ ys).get? i = some a) (ha : a ∉ ys) : i < xs.length := by
  rcases Nat.lt_or_ge i xs.length with hlt | hge
  · exact hlt
  · exact absurd (List.get?_mem (by rwa [List.get?_append_right hge] at h)) ha

/-- Claim C2 counterexample: in the concrete run trace (definition
registered, one RUNNING poll, one STOPPED poll, task-status handle given)
the identifier report occurs at index 3, after the RUNNING poll at index 2,
so the claim that the identifier is reported strictly before the engine
begins polling for RUNNING is false. -/
theorem claim_C2_counterexample_started_reported_after_running_poll :
    ¬ (∀ i j : Nat,
        (ecsTaskRunEvents "arn:task" true 1 1 true).get? i
          = some (RunEvent.reportStarted "arn:task")
        → (ecsTaskRunEvents "arn:task" true 1 1 true).get? j
          = some (RunEvent.poll "RUNNING")
        → i < j) := by
  intro h
  have h32 := h 3 2 rfl rfl
  omega

theorem reportStarted_not_mem_createEvents (arn : String) (r : Bool) (s : Nat) :
    RunEvent.reportStarted arn ∉ createTaskAndWaitForStartEvents r s := by
  cases r <;> simp [createTaskAndWaitForStartEvents, List.mem_replicate]

theorem reportStarted_not_mem_watchEvents (arn arn' : String) (f : Nat) :
    RunEvent.reportStarted arn ∉ watchTaskAndGetResultEvents arn' f := by
  simp [watchTaskAndGetResultEvents, List.mem_replicate]

theorem pollStopped_not_mem_createEvents (r : Bool) (s : Nat) :
    RunEvent.poll "STOPPED" ∉ createTaskAndWaitForStartEvents r s := by
  cases r <;> simp [createTaskAndWaitForStartEvents, List.mem_replicate]

theorem pollRunning_not_mem_startedAndWatch (arn arn' : String) (f : Nat) :
    RunEvent.poll "RUNNING"
      ∉ [RunEvent.reportStarted arn] ++ watchTaskAndGetResultEvents arn' f := by
  simp [watchTaskAndGetResultEvents, List.mem_replicate]

/-- Claim C2 as amended: in every run trace with a task-status handle, the
run identifier is reported after the `run_task` launch call and after every
poll of the RUNNING-wait, and strictly before every poll of the
STOPPED-wait. -/
theorem claim_C2_amended_identifier_reported_after_start_wait
    (arn : String) (registered : Bool) (s f i j : Nat)
    (hi : (ecsTaskRunEvents arn registered s f true).get? i
            = some (RunEvent.reportStarted arn))
    (hj : (ecsTaskRunEvents arn registered s f true).get? j
            = some (RunEvent.poll "STOPPED")) :
    (∃ k, k < i ∧ (ecsTaskRunEvents arn registered s f true).get? k
            = some RunEvent.runTaskCall)
    ∧ (∀ j', (ecsTaskRunEvents arn registered s f true).get? j'
            = some (RunEvent.poll "RUNNING") → j' < i)
    ∧ i < j := by
  have hA : ecsTaskRunEvents arn registered s f true
      = createTaskAndWaitForStartEvents registered s
        ++ ([RunEvent.reportStarted arn] ++ watchTaskAndGetResultEvents arn f) := by
    simp [ecsTaskRunEvents, List.append_assoc]
  rw [hA] at hi hj
  obtain ⟨hige, hi2⟩ := get?_append_elim hi (reportStarted_not_mem_createEvents arn registered s)
  have hilt : i - (createTaskAndWaitForStartEvents registered s).length < 1 := by
    have := get?_lt_of_not_mem_right hi2 (reportStarted_not_mem_watchEvents arn arn f)
    simpa using this
  have hieq : i = (createTaskAndWaitForStartEvents registered s).length := by omega
  obtain ⟨hjge, hj2⟩ := get?_append_elim hj (pollStopped_not_mem_createEvents registered s)
  have hj3 : 1 ≤ j - (createTaskAndWaitForStartEvents registered s).length := by
    have := get?_append_elim hj2 (by simp : RunEvent.poll "STOPPED" ∉ [RunEvent.reportStarted arn])
    simpa using this.1
  refine ⟨?_, ?_, by omega⟩
  · refine ⟨if registered then 1 else 0, ?_, ?_⟩
    · cases registered <;> simp [createTaskAndWaitForStartEvents, hieq]
    · rw [hA]
      have hk : (if registered then 1 else 0)
          < (createTaskAndWaitForStartEvents registered s).length := by
        cases registered <;> simp [createTaskAndWaitForStartEvents]
      rw [List.get?_append hk]
      cases registered <;> simp [createTaskAndWaitForStartEvents]
  · intro j' hj'
    rw [hA] at hj'
    have := get?_lt_of_not_mem_right hj' (pollRunning_not_mem_startedAndWatch arn arn f)
    omega

/-- Witness for the amended claim C2 at the concrete trace of the
counterexample. -/
theorem claim_C2_amended_identifier_reported_after_start_wait_witness :
    (∃ k, k < 3 ∧ (ecsTaskRunEvents "arn:task" true 1 1 true).get? k
            = some RunEvent.runTaskCall)
    ∧ (∀ j', (ecsTaskRunEvents "arn:task" true 1 1 true).get? j'
            = some (RunEvent.poll "RUNNING") → j' < 3)
    ∧ 3 < 4 :=
  claim_C2_amended_identifier_reported_after_start_wait "arn:task" true 1 1 3 4 rfl rfl

/-!
## Task Lifecycle Watcher (`ECSTask._watch_task_run` and
`ECSTask._wait_for_task_start`, `prefect_aws/ecs.py`)

`_watch_task_run` polls `describe_tasks` until the target status is seen,
breaking early on STOPPED and raising `TimeoutError` when the elapsed
wall-clock time exceeds the timeout; `_wait_for_task_start` consumes the
yielded task descriptions and, on a STOPPED description, raises a
dynamically named exception carrying the service-reported stop code (as the
exception type name) and stopped reason (as its message).  The combined
machine is embedded below. `poll i` is the task description returned by the
i-th `describe_tasks` call; `timeAt 0` is the `time.time()` reading taken
before the loop and `timeAt (i+1)` the reading used for the timeout check
of iteration i.  Fuel bounds the number of iterations modelled; a run that
is still polling when fuel runs out yields `fuelOut`.
-/

structure TaskStatusView where
  lastStatus : String
  stopCode : Option String
  stoppedReason : Option String
deriving DecidableEq

inductive StartWaitOutcome where
  | reached (polls : Nat)
  | stoppedBeforeRunning (code reason : Option String)
  | startTimeout (elapsed : ℚ)
  | fuelOut
deriving DecidableEq

def waitForTaskStartAux (poll : Nat → TaskStatusView) (timeAt : Nat → ℚ) (t0 : ℚ)
    (untilStatus : String) (timeout : ℚ) :
    Nat → Nat → String → StartWaitOutcome
  | 0, _, _ => .fuelOut
  | fuel + 1, i, status =>
    if status = untilStatus then .reached i
    else if (poll i).lastStatus = "STOPPED" then
      .stoppedBeforeRunning (poll i).stopCode (poll i).stoppedReason
    else if timeAt (i + 1) - t0 > timeout then
      .startTimeout (timeAt (i + 1) - t0)
    else
      waitForTaskStartAux poll timeAt t0 untilStatus timeout fuel (i + 1)
        (poll i).lastStatus

/-- Embeds `_wait_for_task_start`: watch from the initial UNKNOWN status
until RUNNING with the configured timeout. -/
def waitForTaskStart (poll : Nat → TaskStatusView) (timeAt : Nat → ℚ)
    (timeout : ℚ) (fuel : Nat) : StartWaitOutcome :=
  waitForTaskStartAux poll timeAt (timeAt 0) "RUNNING" timeout fuel 0 "UNKNOWN"

theorem waitAux_timeout_exceeds (poll : Nat → TaskStatusView) (timeAt : Nat → ℚ)
    (t0 : ℚ) (u : String) (T : ℚ) :
    ∀ fuel i status e,
      waitForTaskStartAux poll timeAt t0 u T fuel i status = .startTimeout e
      → e > T := by
  intro fuel
  induction fuel with
  | zero => intro i status e h; simp [waitForTaskStartAux] at h
  | succ n ih =>
      intro i status e h
      unfold waitForTaskStartAux at h
      split at h
      · simp at h
      · split at h
        · simp at h
        · split at h
          · rename_i hc
            rw [StartWaitOutcome.startTimeout.injEq] at h
            exact h ▸ hc
          · exact ih (i + 1) _ e h

theorem waitAux_no_success (poll : Nat → TaskStatusView) (timeAt : Nat → ℚ)
    (t0 : ℚ) (T : ℚ)
    (hs : ∀ k, (poll k).lastStatus ≠ "RUNNING" ∧ (poll k).lastStatus ≠ "STOPPED") :
    ∀ fuel i status, status ≠ "RUNNING"
      → (∀ p, waitForTaskStartAux poll timeAt t0 "RUNNING" T fuel i status
            ≠ .reached p)
        ∧ (∀ c r, waitForTaskStartAux poll timeAt t0 "RUNNING" T fuel i status
            ≠ .stoppedBeforeRunning c r) := by
  intro fuel
  induction fuel with
  | zero =>
      intro i status hst
      exact ⟨fun p h => by simp [waitForTaskStartAux] at h,
             fun c r h => by simp [waitForTaskStartAux] at h⟩
  | succ n ih =>
      intro i status hst
      constructor
      · intro p h
        unfold waitForTaskStartAux at h
        rw [if_neg hst, if_neg (hs i).2] at h
        split at h
        · simp at h
        · exact (ih (i + 1) _ (hs i).1).1 p h
      · intro c r h
        unfold waitForTaskStartAux at h
        rw [if_neg hst, if_neg (hs i).2] at h
        split at h
        · simp at h
        · exact (ih (i + 1) _ (hs i).1).2 c r h

theorem waitAux_timeout_occurs (poll : Nat → TaskStatusView) (timeAt : Nat → ℚ)
    (t0 : ℚ) (T : ℚ)
    (hs : ∀ k, (poll k).lastStatus ≠ "RUNNING" ∧ (poll k).lastStatus ≠ "STOPPED") :
    ∀ fuel i status, status ≠ "RUNNING"
      → (∃ m, i ≤ m ∧ m < i + fuel ∧ timeAt (m + 1) - t0 > T)
      → ∃ e, waitForTaskStartAux poll timeAt t0 "RUNNING" T fuel i status
              = .startTimeout e ∧ e > T := by
  intro fuel
  induction fuel with
  | zero => rintro i status hst ⟨m, h1, h2, h3⟩; omega
  | succ n ih =>
      rintro i status hst ⟨m, h1, h2, h3⟩
      unfold waitForTaskStartAux
      rw [if_neg hst, if_neg (hs i).2]
      by_cases hc : timeAt (i + 1) - t0 > T
      · exact ⟨timeAt (i + 1) - t0, by rw [if_pos hc], hc⟩
      · rw [if_neg hc]
        apply ih (i + 1) (poll i).lastStatus (hs i).1
        refine ⟨m, ?_, by omega, h3⟩
        rcases Nat.eq_or_lt_of_le h1 with he | hlt
        · exact absurd (he ▸ h3) hc
        · omega

/-- Claim C7: against a service that never reports RUNNING or STOPPED, the
start watcher (a) only raises the timeout error with an elapsed time
strictly greater than the timeout T (hence at or after T, never before),
(b) never reports RUNNING reached or a stopped task, and (c) does raise the
timeout error as soon as some in-fuel poll observes an elapsed time beyond
T. -/
theorem claim_C7_watcher_timeout_at_or_after_T
    (poll : Nat → TaskStatusView) (timeAt : Nat → ℚ) (T : ℚ) (fuel : Nat)
    (hs : ∀ k, (poll k).lastStatus ≠ "RUNNING" ∧ (poll k).lastStatus ≠ "STOPPED") :
    (∀ e, waitForTaskStart poll timeAt T fuel = .startTimeout e → e > T)
    ∧ (∀ p, waitForTaskStart poll timeAt T fuel ≠ .reached p)
    ∧ (∀ c r, waitForTaskStart poll timeAt T fuel ≠ .stoppedBeforeRunning c r)
    ∧ ((∃ m, m < fuel ∧ timeAt (m + 1) - timeAt 0 > T)
        → ∃ e, waitForTaskStart poll timeAt T fuel = .startTimeout e ∧ e > T) := by
  refine ⟨fun e h => waitAux_timeout_exceeds poll timeAt (timeAt 0) "RUNNING" T fuel 0 "UNKNOWN" e h,
    (waitAux_no_success poll timeAt (timeAt 0) T hs fuel 0 "UNKNOWN" (by decide)).1,
    (waitAux_no_success poll timeAt (timeAt 0) T hs fuel 0 "UNKNOWN" (by decide)).2,
    fun ⟨m, h1, h2⟩ => waitAux_timeout_occurs poll timeAt (timeAt 0) T hs fuel 0 "UNKNOWN"
      (by decide) ⟨m, Nat.zero_le m, by omega, h2⟩⟩

/-- Witness for claim C7: a stub that always reports PROVISIONING, polled
once per second with a 1.5 second timeout, times out with elapsed time 2. -/
theorem claim_C7_watcher_timeout_at_or_after_T_witness :
    ∃ e, waitForTaskStart (fun _ => ⟨"PROVISIONING", none, none⟩)
        (fun i => (i : ℚ)) (3 / 2) 3 = .startTimeout e ∧ e > 3 / 2 := by
  refine (claim_C7_watcher_timeout_at_or_after_T (fun _ => ⟨"PROVISIONING", none, none⟩)
    (fun i => (i : ℚ)) (3 / 2) 3 ?_).2.2.2 ⟨1, by norm_num⟩
  intro k
  exact ⟨by simp, by simp⟩

theorem waitAux_stopped_surfaces (poll : Nat → TaskStatusView) (timeAt : Nat → ℚ)
    (t0 : ℚ) (T : ℚ) (n : Nat) (code reason : String)
    (hn : poll n = ⟨"STOPPED", some code, some reason⟩) :
    ∀ fuel i status, i ≤ n → n < i + fuel → status ≠ "RUNNING"
      → (∀ k, i ≤ k → k < n
          → (poll k).lastStatus ≠ "RUNNING" ∧ (poll k).lastStatus ≠ "STOPPED")
      → (∀ k, i ≤ k → k < n → ¬ (timeAt (k + 1) - t0 > T))
      → waitForTaskStartAux poll timeAt t0 "RUNNING" T fuel i status
          = .stoppedBeforeRunning (some code) (some reason) := by
  intro fuel
  induction fuel with
  | zero => intro i status h1 h2; omega
  | succ m ih =>
      intro i status h1 h2 hst hpre hto
      unfold waitForTaskStartAux
      rw [if_neg hst]
      by_cases hin : i = n
      · subst hin
        rw [if_pos (by rw [hn])]
        rw [hn]
      · have hin' : i < n := by omega
        rw [if_neg (hpre i le_rfl hin').2, if_neg (hto i le_rfl hin')]
        exact ih (i + 1) (poll i).lastStatus (by omega) (by omega)
          (hpre i le_rfl hin').1
          (fun k hk1 hk2 => hpre k (by omega) hk2)
          (fun k hk1 hk2 => hto k (by omega) hk2)

/-- Claim C8: when the service reports STOPPED with a stop code and a
stopped reason before RUNNING is ever observed (and the start timeout has
not fired first), the wait fails with the stopped-before-running error
carrying exactly the service-reported code and reason. -/
theorem claim_C8_stopped_before_running_carries_code_and_reason
    (poll : Nat → TaskStatusView) (timeAt : Nat → ℚ) (T : ℚ) (fuel n : Nat)
    (code reason : String)
    (hn : poll n = ⟨"STOPPED", some code, some reason⟩)
    (hfuel : n < fuel)
    (hpre : ∀ k, k < n
        → (poll k).lastStatus ≠ "RUNNING" ∧ (poll k).lastStatus ≠ "STOPPED")
    (hto : ∀ k, k < n → ¬ (timeAt (k + 1) - timeAt 0 > T)) :
    waitForTaskStart poll timeAt T fuel
      = .stoppedBeforeRunning (some code) (some reason) :=
  waitAux_stopped_surfaces poll timeAt (timeAt 0) T n code reason hn fuel 0 "UNKNOWN"
    (Nat.zero_le n) (by omega) (by decide)
    (fun k _ hk2 => hpre k hk2) (fun k _ hk2 => hto k hk2)

/-- Witness for claim C8: a stub that reports PENDING once and then STOPPED
with stop code OutOfMemoryError and reason killed. -/
theorem claim_C8_stopped_before_running_carries_code_and_reason_witness :
    waitForTaskStart
        (fun i => if i = 0 then ⟨"PENDING", none, none⟩
                  else ⟨"STOPPED", some "OutOfMemoryError", some "killed"⟩)
        (fun i => (i : ℚ)) 100 5
      = .stoppedBeforeRunning (some "OutOfMemoryError") (some "killed") :=
  claim_C8_stopped_before_running_carries_code_and_reason
    (fun i => if i = 0 then ⟨"PENDING", none, none⟩
              else ⟨"STOPPED", some "OutOfMemoryError", some "killed"⟩)
    (fun i => (i : ℚ)) 100 5 1 "OutOfMemoryError" "killed" rfl (by omega)
    (fun k hk => by interval_cases k; exact ⟨by decide, by decide⟩)
    (fun k hk => by interval_cases k; norm_num)

/-!
## Log Tail Streamer (`ECSTask._stream_available_logs`, `prefect_aws/ecs.py`)

The external logs client is embedded as a function from the request
parameters the source varies (`nextToken`, `startTime`) to the returned
page.  One `drain` call loops until the service returns the same forward
token that was just sent; each iteration emits every event of the page in
order and advances the last-emitted timestamp to the maximum seen.  On each
request, when a last timestamp exists, `startTime` is that timestamp plus
one.  Fuel bounds the pagination loop.
-/

structure LogEvent where
  timestamp : Int
  message : String
deriving DecidableEq

structure LogPage where
  events : List LogEvent
  nextForwardToken : Option String
deriving DecidableEq

structure DrainResult where
  emitted : List LogEvent
  requests : List (Option String × Option Int)
  cursor : Option Int
deriving DecidableEq

/-- Per-event update of `last_log_timestamp`: set when unset or when the
event's timestamp is larger. -/
def advanceCursor (cur : Option Int) (e : LogEvent) : Option Int :=
  match cur with
  | none => some e.timestamp
  | some t => if e.timestamp > t then some e.timestamp else some t

def streamAvailableLogsAux (client : Option String → Option Int → LogPage) :
    Nat → Option String → Option String → Option Int
    → List LogEvent → List (Option String × Option Int) → DrainResult
  | 0, _, _, lastTs, acc, reqs => ⟨acc, reqs, lastTs⟩
  | fuel + 1, lastTok, nextTok, lastTs, acc, reqs =>
    if lastTok = nextTok then ⟨acc, reqs, lastTs⟩
    else
      let startTime := lastTs.map (· + 1)
      let page := client nextTok startTime
      streamAvailableLogsAux client fuel nextTok page.nextForwardToken
        (page.events.foldl advanceCursor lastTs)
        (acc ++ page.events) (reqs ++ [(nextTok, startTime)])

/-- Embeds one call of `_stream_available_logs`: the token pair starts as
`("NO-TOKEN", None)`, so the loop always issues at least one request. -/
def streamAvailableLogs (client : Option String → Option Int → LogPage)
    (lastLogTimestamp : Option Int) (fuel : Nat) : DrainResult :=
  streamAvailableLogsAux client fuel (some "NO-TOKEN") none lastLogTimestamp [] []

theorem advanceCursor_spec (cur : Option Int) (e : LogEvent) :
    ∃ v, advanceCursor cur e = some v ∧ e.timestamp ≤ v
      ∧ ∀ u, cur = some u → u ≤ v := by
  cases cur with
  | none => exact ⟨e.timestamp, rfl, le_rfl, by simp⟩
  | some t =>
      by_cases h : e.timestamp > t
      · exact ⟨e.timestamp, by simp [advanceCursor, h], le_rfl,
          by intro u hu; cases hu; omega⟩
      · exact ⟨t, by simp [advanceCursor, h], by omega,
          by intro u hu; cases hu; exact le_rfl⟩

theorem foldl_advanceCursor_bounds (es : List LogEvent) (cur : Option Int) :
    (∀ u, cur = some u → ∃ u', es.foldl advanceCursor cur = some u' ∧ u ≤ u')
    ∧ (∀ e ∈ es, ∃ u', es.foldl advanceCursor cur = some u' ∧ e.timestamp ≤ u') := by
  induction es generalizing cur with
  | nil =>
      refine ⟨fun u h => ⟨u, h, le_rfl⟩, fun e h => ?_⟩
      simp at h
  | cons e rest ih =>
      obtain ⟨v, hv, hev, hcur⟩ := advanceCursor_spec cur e
      rw [List.foldl_cons, hv]
      refine ⟨fun u hu => ?_, fun e' he' => ?_⟩
      · obtain ⟨u', h1, h2⟩ := (ih (some v)).1 v rfl
        exact ⟨u', h1, le_trans (hcur u hu) h2⟩
      · rcases List.mem_cons.mp he' with he' | he'
        · obtain ⟨u', h1, h2⟩ := (ih (some v)).1 v rfl
          exact ⟨u', h1, he' ▸ le_trans hev h2⟩
        · exact (ih (some v)).2 e' he'

theorem streamAux_fresh (client : Option String → Option Int → LogPage)
    (hhonor : ∀ tok s, ∀ e ∈ (client tok (some s)).events, s ≤ e.timestamp)
    (c : Int) :
    ∀ fuel lastTok nextTok t acc reqs, c ≤ t
      → (∀ e ∈ acc, c < e.timestamp)
      → (∀ q ∈ reqs, ∃ u, c ≤ u ∧ q.2 = some (u + 1))
      → (∀ e ∈ (streamAvailableLogsAux client fuel lastTok nextTok (some t) acc reqs).emitted,
            c < e.timestamp)
        ∧ (∀ q ∈ (streamAvailableLogsAux client fuel lastTok nextTok (some t) acc reqs).requests,
            ∃ u, c ≤ u ∧ q.2 = some (u + 1)) := by
  intro fuel
  induction fuel with
  | zero =>
      intro lastTok nextTok t acc reqs hct hacc hreqs
      exact ⟨hacc, hreqs⟩
  | succ n ih =>
      intro lastTok nextTok t acc reqs hct hacc hreqs
      unfold streamAvailableLogsAux
      split
      · exact ⟨hacc, hreqs⟩
      · simp only [Option.map_some']
        obtain ⟨t', ht', htt'⟩ :=
          (foldl_advanceCursor_bounds (client nextTok (some (t + 1))).events (some t)).1 t rfl
        rw [ht']
        apply ih nextTok (client nextTok (some (t + 1))).nextForwardToken t'
        · omega
        · intro e he
          rcases List.mem_append.mp he with he | he
          · exact hacc e he
          · have := hhonor nextTok (t + 1) e he
            omega
        · intro q hq
          rcases List.mem_append.mp hq with hq | hq
          · exact hreqs q hq
          · rw [List.mem_singleton] at hq
            exact ⟨t, hct, by rw [hq]⟩

theorem streamAux_requests_prefix (client : Option String → Option Int → LogPage) :
    ∀ fuel lastTok nextTok lastTs acc reqs,
      ∃ extra, (streamAvailableLogsAux client fuel lastTok nextTok lastTs acc reqs).requests
        = reqs ++ extra := by
  intro fuel
  induction fuel with
  | zero => intro _ _ _ _ reqs; exact ⟨[], by simp [streamAvailableLogsAux]⟩
  | succ n ih =>
      intro lastTok nextTok lastTs acc reqs
      unfold streamAvailableLogsAux
      split
      · exact ⟨[], by simp⟩
      · obtain ⟨extra, hx⟩ := ih nextTok
          (client nextTok (lastTs.map (· + 1))).nextForwardToken
          ((client nextTok (lastTs.map (· + 1))).events.foldl advanceCursor lastTs)
          (acc ++ (client nextTok (lastTs.map (· + 1))).events)
          (reqs ++ [(nextTok, lastTs.map (· + 1))])
        exact ⟨(nextTok, lastTs.map (· + 1)) :: extra, by rw [hx, List.append_assoc]; rfl⟩

theorem streamAux_cursor_dominates (client : Option String → Option Int → LogPage) :
    ∀ fuel lastTok nextTok cur acc reqs,
      (∀ e ∈ acc, ∃ u, cur = some u ∧ e.timestamp ≤ u)
      → ∀ t', (streamAvailableLogsAux client fuel lastTok nextTok cur acc reqs).cursor = some t'
      → ∀ e ∈ (streamAvailableLogsAux client fuel lastTok nextTok cur acc reqs).emitted,
          e.timestamp ≤ t' := by
  intro fuel
  induction fuel with
  | zero =>
      intro lastTok nextTok cur acc reqs hacc t' hcur e he
      simp only [streamAvailableLogsAux] at hcur he
      obtain ⟨u, hu, hle⟩ := hacc e he
      rw [hcur] at hu
      cases hu
      exact hle
  | succ n ih =>
      intro lastTok nextTok cur acc reqs hacc t' hcur e he
      unfold streamAvailableLogsAux at hcur he
      by_cases hne : lastTok = nextTok
      · rw [if_pos hne] at hcur he
        dsimp only at hcur he
        obtain ⟨u, hu, hle⟩ := hacc e he
        rw [hcur] at hu
        cases hu
        exact hle
      · rw [if_neg hne] at hcur he
        refine ih nextTok (client nextTok (cur.map (· + 1))).nextForwardToken
          ((client nextTok (cur.map (· + 1))).events.foldl advanceCursor cur)
          (acc ++ (client nextTok (cur.map (· + 1))).events)
          (reqs ++ [(nextTok, cur.map (· + 1))]) ?_ t' hcur e he
        intro e' he'
        rcases List.mem_append.mp he' with he' | he'
        · obtain ⟨u, hu, hle⟩ := hacc e' he'
          obtain ⟨u', h1, h2⟩ :=
            (foldl_advanceCursor_bounds (client nextTok (cur.map (· + 1))).events cur).1 u hu
          exact ⟨u', h1, le_trans hle h2⟩
        · exact (foldl_advanceCursor_bounds (client nextTok (cur.map (· + 1))).events cur).2 e' he'

/-- Claim C9: when the logs service honors `startTime` (every returned
event has a timestamp at or after the requested start), a drain call given
the cursor `c` returned by the previous call (a) emits only events with
timestamps strictly greater than `c`, (b) issues every request with
`startTime` equal to the current last-emitted timestamp plus one (a value
at least `c + 1`), the first request using exactly `c + 1`, and (c) any
drain call's emitted events are all bounded by its returned cursor, so the
first call's events (all at most `c`) are never re-emitted by the second.
-/
theorem claim_C9_drain_never_reemits
    (client : Option String → Option Int → LogPage)
    (hhonor : ∀ tok s, ∀ e ∈ (client tok (some s)).events, s ≤ e.timestamp)
    (c : Int) (fuel : Nat) :
    (∀ e ∈ (streamAvailableLogs client (some c) fuel).emitted, c < e.timestamp)
    ∧ (∀ q ∈ (streamAvailableLogs client (some c) fuel).requests,
          ∃ u, c ≤ u ∧ q.2 = some (u + 1))
    ∧ (∀ fuel', (streamAvailableLogs client (some c) (fuel' + 1)).requests.head?
          = some (none, some (c + 1)))
    ∧ (∀ (l0 : Option Int) (t' : Int),
          (streamAvailableLogs client l0 fuel).cursor = some t'
          → ∀ e ∈ (streamAvailableLogs client l0 fuel).emitted, e.timestamp ≤ t') := by
  refine ⟨(streamAux_fresh client hhonor c fuel (some "NO-TOKEN") none c [] []
      le_rfl (by simp) (by simp)).1,
    (streamAux_fresh client hhonor c fuel (some "NO-TOKEN") none c [] []
      le_rfl (by simp) (by simp)).2, ?_, ?_⟩
  · intro fuel'
    unfold streamAvailableLogs streamAvailableLogsAux
    rw [if_neg (by simp)]
    obtain ⟨extra, hx⟩ := streamAux_requests_prefix client fuel' none
      (client none ((some c).map (· + 1))).nextForwardToken
      ((client none ((some c).map (· + 1))).events.foldl advanceCursor (some c))
      ([] ++ (client none ((some c).map (· + 1))).events)
      ([] ++ [(none, (some c).map (· + 1))])
    rw [hx]
    rfl
  · intro l0 t' hcur e he
    exact streamAux_cursor_dominates client fuel (some "NO-TOKEN") none l0 [] []
      (by simp) t' hcur e he

/-- Stub logs client for the claim C9 witness: a single page with events at
timestamps 7 and 9, filtered by the requested start time (hence honoring
it). -/
def c9Client (_tok : Option String) (st : Option Int) : LogPage :=
  ⟨[⟨7, "a"⟩, ⟨9, "b"⟩].filter
      (fun e => match st with | none => true | some s => decide (s ≤ e.timestamp)),
    none⟩

/-- Witness for claim C9: draining `c9Client` from cursor 4 emits exactly
the two events, and the first emitted event's timestamp exceeds the
cursor. -/
theorem claim_C9_drain_never_reemits_witness :
    (streamAvailableLogs c9Client (some 4) 3).emitted = [⟨7, "a"⟩, ⟨9, "b"⟩]
    ∧ (4 : Int) < LogEvent.timestamp ⟨7, "a"⟩ :=
  ⟨rfl,
   (claim_C9_drain_never_reemits c9Client
      (by
        intro tok s e he
        simp only [c9Client, List.mem_filter] at he
        exact of_decide_eq_true he.2)
      4 3).1 ⟨7, "a"⟩ (by decide)⟩

/-!
## Task Definition Builder (`ECSTask._prepare_task_definition`,
`prefect_aws/ecs.py`)

`ECSTaskSettings` embeds the `ECSTask` fields this method reads.  The
`cpu`/`memory` settings are `Union[int, str] = None` in the source, hence
`Option JVal` here; `launch_type` is `Optional[str]`.  Container mutations
happen through the alias held by the `container` variable; since the source
performs no read of `task_definition["containerDefinitions"]` between the
initial `setdefault` and the end of the method, the embedding tracks the
container list separately and writes it back at the end (the key position
is unchanged because the initial `setdefault` already placed the key).
-/

structure ECSTaskSettings where
  image : String
  configureCloudwatchLogs : Bool
  name : Option String
  cpu : Option JVal
  memory : Option JVal
  launchType : Option String
  executionRoleArn : Option String
  taskDefinitionArn : Option String

/-- Truthiness of an `Optional[str]` field. -/
def optStrTruthy : Option String → Bool
  | some s => s != ""
  | none => false

/-- Index of the first container whose `"name"` equals the requested name,
scanning like `get_container` (a non-dict entry reached during the scan
raises `AttributeError`). -/
def locateContainer (containers : List JVal) (name : String) :
    Except PyErr (Option Nat) :=
  match containers with
  | [] => .ok none
  | .obj kvs :: rest =>
      if pyEqB ((dictGet kvs "name").getD .null) (.str name) then .ok (some 0)
      else do
        let r ← locateContainer rest name
        return r.map (· + 1)
  | _ :: _ => .error (.attributeError "get")

/-- In-place update of the dict at the given index of a container list. -/
def modifyObjAt (xs : List JVal) (i : Nat) (f : PyDict → PyDict) :
    Except PyErr (List JVal) :=
  match xs, i with
  | [], _ => .error .indexError
  | .obj kvs :: rest, 0 => .ok (.obj (f kvs) :: rest)
  | _ :: _, 0 => .error (.attributeError "not a dict")
  | x :: rest, n + 1 => do
      let r ← modifyObjAt rest n f
      return x :: r

/-- The `logConfiguration` block attached when CloudWatch logging is
configured; the stream prefix is `self.name or "prefect"`. -/
def logConfigurationBlock (name : Option String) (region : String) : JVal :=
  .obj [("logDriver", .str "awslogs"),
        ("options", .obj
          [("awslogs-create-group", .str "true"),
           ("awslogs-group", .str "prefect"),
           ("awslogs-region", .str region),
           ("awslogs-stream-prefix",
            .str (match name with
                  | some n => if n != "" then n else "prefect"
                  | none => "prefect"))])]

def digitVal (c : Char) : Option Nat :=
  if 48 ≤ c.toNat && c.toNat ≤ 57 then some (c.toNat - 48) else none

def digitsToNatAux (acc : Nat) : List Char → Option Nat
  | [] => some acc
  | c :: rest =>
    match digitVal c with
    | some d => digitsToNatAux (acc * 10 + d) rest
    | none => none

/-- Python `int(s)` on a decimal string literal (optional sign). -/
def pyIntOfString (s : String) : Option Int :=
  match s.toList with
  | [] => none
  | '-' :: rest =>
      if rest.isEmpty then none
      else (digitsToNatAux 0 rest).map (fun n => -(n : Int))
  | cs => (digitsToNatAux 0 cs).map (fun n => (n : Int))

/-- Python `int(v)` on the values the builder may hold in `cpu`/`memory`. -/
def pyToInt : JVal → Except PyErr Int
  | .int n => .ok n
  | .bool b => .ok (if b then 1 else 0)
  | .str s =>
      match pyIntOfString s with
      | some n => .ok n
      | none => .error (.valueError "invalid literal for int() with base 10")
  | _ => .error (.typeError "int() argument must be a string or a number")

/-- Embeds `cpu = self.cpu or task_definition.get("cpu") or ECS_DEFAULT_CPU`. -/
def resolveCpu (cfg : ECSTaskSettings) (td : PyDict) : JVal :=
  pyOrV cfg.cpu (pyOrV (dictGet td "cpu") (.int 1024))

/-- Embeds `memory = self.memory or task_definition.get("memory") or
ECS_DEFAULT_MEMORY`. -/
def resolveMemory (cfg : ECSTaskSettings) (td : PyDict) : JVal :=
  pyOrV cfg.memory (pyOrV (dictGet td "memory") (.int 2048))

/-- Pure happy-path variant of `get_container`, used to state properties of
built documents. -/
def findContainerKvs (containers : List JVal) (name : String) : Option PyDict :=
  match containers with
  | [] => none
  | .obj kvs :: rest =>
      if pyEqB ((dictGet kvs "name").getD .null) (.str name) then some kvs
      else findContainerKvs rest name
  | _ :: rest => findContainerKvs rest name

/-- Launch-mode-specific step of `ECSTask._prepare_task_definition` (the
`if self.launch_type == ...` chain): for the serverless modes, place the
resolved cpu/memory stringified at the task level, extend the
compatibility list and default the network mode; for the instance-backed
mode, set the resolved values as integers on the orchestration container
(only where not already set).  Returns the task document together with the
container list. -/
def prepareTaskDefinitionBranch (cfg : ECSTaskSettings) (td : PyDict)
    (cds3 : List JVal) (ci : Nat) : Except PyErr (PyDict × List JVal) := do
  let cpu := resolveCpu cfg td
  let memory := resolveMemory cfg td
  if cfg.launchType = some "FARGATE" ∨ cfg.launchType = some "FARGATE_SPOT" then do
    let td := dictSet td "cpu" (.str (pyStr cpu))
    let td := dictSet td "memory" (.str (pyStr memory))
    let (rc, td) := dictSetdefault td "requiresCompatibilities" (.list [])
    let td ← (match rc with
      | .list xs =>
          if xs.any (fun v => pyEqB v (.str "FARGATE")) then Except.ok td
          else Except.ok (dictSet td "requiresCompatibilities"
            (.list (xs ++ [.str "FARGATE"])))
      | .str s =>
          if strContains s "FARGATE" then Except.ok td
          else Except.error (PyErr.attributeError "append")
      | _ => Except.error (PyErr.typeError "argument of type is not iterable"))
    -- networkMode defaults to awsvpc; an incompatible explicit mode only warns
    let td := (dictSetdefault td "networkMode" (.str "awsvpc")).2
    Except.ok (td, cds3)
  else if cfg.launchType = some "EC2" then do
    let cpuInt ← pyToInt cpu
    let memInt ← pyToInt memory
    let cds ← modifyObjAt cds3 ci
      (fun c => (dictSetdefault c "cpu" (.int cpuInt)).2)
    let cds ← modifyObjAt cds ci
      (fun c => (dictSetdefault c "memory" (.int memInt)).2)
    Except.ok (td, cds)
  else Except.ok (td, cds3)

/-- Final step of `ECSTask._prepare_task_definition`: attach the execution
role when configured directly (and no linked definition), enforce the
execution-role requirement for CloudWatch logging, and return the document
with its final container list. -/
def prepareTaskDefinitionFinish (cfg : ECSTaskSettings) (td : PyDict)
    (cds4 : List JVal) : Except PyErr PyDict :=
  let td :=
    if optStrTruthy cfg.executionRoleArn && !optStrTruthy cfg.taskDefinitionArn then
      dictSet td "executionRoleArn" (.str (cfg.executionRoleArn.getD ""))
    else td
  if cfg.configureCloudwatchLogs
      && !pyTruthy ((dictGet td "executionRoleArn").getD .null) then
    Except.error (PyErr.valueError
      ("An execution role arn must be set on the task definition to use "
        ++ "configure_cloudwatch_logs or stream_logs but no execution role "
        ++ "was found on the task definition."))
  else
    Except.ok (dictSet td "containerDefinitions" (.list cds4))

/-- Embeds `ECSTask._prepare_task_definition`: ensure the orchestration
container exists (creating it when absent), apply the image and the
CloudWatch log configuration, default the family, then run the launch-mode
branch and the finish step.  The container list is mutated through the
`container` alias in the source and written back once at the end; its key
position is unchanged because the initial `setdefault` already placed it. -/
def prepareTaskDefinition (cfg : ECSTaskSettings) (taskDefinition : PyDict)
    (region : String) : Except PyErr PyDict := do
  -- deep copy is implicit (values are immutable here)
  let td := (dictSetdefault taskDefinition "containerDefinitions" (.list [])).2
  let cds0 ← (match (dictGet td "containerDefinitions").getD (.list []) with
    | .list xs => Except.ok xs
    | _ => Except.error (PyErr.typeError "containerDefinitions is not a list of dicts"))
  let idx ← locateContainer cds0 "prefect"
  let (cds1, ci) := (match idx with
    | some i => (cds0, i)
    | none => (cds0 ++ [JVal.obj [("name", JVal.str "prefect")]], cds0.length))
  let cds2 ← modifyObjAt cds1 ci (fun c => dictSet c "image" (.str cfg.image))
  let cds3 ←
    if cfg.configureCloudwatchLogs then
      modifyObjAt cds2 ci (fun c =>
        dictSet c "logConfiguration" (logConfigurationBlock cfg.name region))
    else pure cds2
  let td := (dictSetdefault td "family" (.str "prefect")).2
  let (td, cds4) ← prepareTaskDefinitionBranch cfg td cds3 ci
  prepareTaskDefinitionFinish cfg td cds4

theorem dictGet_dictSet_self (d : PyDict) (k : String) (v : JVal) :
    dictGet (dictSet d k v) k = some v := by
  induction d with
  | nil => simp [dictSet, dictGet]
  | cons p rest ih =>
      by_cases h : p.1 = k
      · simp [dictSet, dictGet, h]
      · simp [dictSet, dictGet, h, ih]

theorem dictGet_dictSet_ne (d : PyDict) (k k' : String) (v : JVal) (h : k ≠ k') :
    dictGet (dictSet d k v) k' = dictGet d k' := by
  induction d with
  | nil => simp [dictSet, dictGet, h]
  | cons p rest ih =>
      by_cases hp : p.1 = k
      · subst hp
        simp [dictSet, dictGet, h, ih]
      · simp only [dictSet, if_neg hp]
        by_cases hp' : p.1 = k'
        · simp [dictGet, hp']
        · simp [dictGet, hp', ih]

theorem dictGet_append_single (d : PyDict) (k k' : String) (v : JVal) :
    dictGet (d ++ [(k, v)]) k'
      = (dictGet d k').orElse (fun _ => if k = k' then some v else none) := by
  induction d with
  | nil => simp [dictGet]
  | cons p rest ih =>
      by_cases hp : p.1 = k'
      · simp [dictGet, hp]
      · simp [dictGet, hp, ih]

theorem dictGet_setdefault_ne (d : PyDict) (k k' : String) (v : JVal) (h : k ≠ k') :
    dictGet (dictSetdefault d k v).2 k' = dictGet d k' := by
  unfold dictSetdefault
  cases hd : dictGet d k with
  | some w => rfl
  | none => simp [dictGet_append_single, h]

theorem dictGet_setdefault_of_none (d : PyDict) (k : String) (v : JVal)
    (h : dictGet d k = none) :
    dictGet (dictSetdefault d k v).2 k = some v := by
  unfold dictSetdefault
  rw [h]
  simp [dictGet_append_single, h]

/-- Whether a container list element is a dict whose `"name"` equals `n`. -/
def isNamed (x : JVal) (n : String) : Bool :=
  match x with
  | .obj kvs => pyEqB ((dictGet kvs "name").getD .null) (.str n)
  | _ => false

theorem isNamed_dictSet_ne (kvs : PyDict) (k : String) (v : JVal) (n : String)
    (h : k ≠ "name") :
    isNamed (.obj (dictSet kvs k v)) n = isNamed (.obj kvs) n := by
  simp [isNamed, dictGet_dictSet_ne kvs k "name" v h]

theorem isNamed_setdefault_ne (kvs : PyDict) (k : String) (v : JVal) (n : String)
    (h : k ≠ "name") :
    isNamed (.obj (dictSetdefault kvs k v).2) n = isNamed (.obj kvs) n := by
  simp [isNamed, dictGet_setdefault_ne kvs k "name" v h]

theorem get?_some_lt {α : Type} (l : List α) (i : Nat) (a : α)
    (h : l.get? i = some a) : i < l.length := by
  induction l generalizing i with
  | nil => simp [List.get?] at h
  | cons x rest ih =>
      cases i with
      | zero => simp
      | succ n =>
          simp only [List.get?] at h
          have := ih n h
          simp
          omega

theorem get?_set_self {α : Type} (l : List α) (i : Nat) (a : α)
    (h : i < l.length) : (l.set i a).get? i = some a := by
  induction l generalizing i with
  | nil => simp at h
  | cons x rest ih =>
      cases i with
      | zero => rfl
      | succ n =>
          simp only [List.set, List.get?]
          exact ih n (by simpa using h)

theorem get?_set_ne {α : Type} (l : List α) (i j : Nat) (a : α)
    (h : i ≠ j) : (l.set i a).get? j = l.get? j := by
  induction l generalizing i j with
  | nil => simp
  | cons x rest ih =>
      cases i with
      | zero =>
          cases j with
          | zero => exact absurd rfl h
          | succ m => rfl
      | succ n =>
          cases j with
          | zero => rfl
          | succ m => exact ih n m (by omega)

theorem modifyObjAt_spec (xs : List JVal) (i : Nat) (f : PyDict → PyDict)
    (kvs : PyDict) (h : xs.get? i = some (.obj kvs)) :
    modifyObjAt xs i f = .ok (xs.set i (.obj (f kvs))) := by
  induction xs generalizing i with
  | nil => simp [List.get?] at h
  | cons x rest ih =>
      cases i with
      | zero =>
          simp only [List.get?] at h
          cases h
          rfl
      | succ n =>
          simp only [List.get?] at h
          simp only [modifyObjAt, ih n h, List.set]
          rfl

theorem locateContainer_some_spec (xs : List JVal) (n : String) (i : Nat)
    (h : locateContainer xs n = .ok (some i)) :
    ∃ kvs, xs.get? i = some (.obj kvs)
      ∧ isNamed (.obj kvs) n = true
      ∧ ∀ j, j < i → ∀ v, xs.get? j = some v → isNamed v n = false := by
  induction xs generalizing i with
  | nil => simp [locateContainer] at h
  | cons x rest ih =>
      match x, h with
      | .obj kvs, h =>
          by_cases hm : pyEqB ((dictGet kvs "name").getD .null) (.str n) = true
          · rw [locateContainer, if_pos hm] at h
            cases h
            exact ⟨kvs, rfl, hm, fun j hj v hv => by omega⟩
          · rw [locateContainer, if_neg hm] at h
            cases hr : locateContainer rest n with
            | error e => rw [hr] at h; simp [Except.bind, bind] at h
            | ok r =>
                rw [hr] at h
                simp only [Except.bind, bind, pure, Except.pure] at h
                cases r with
                | none => simp at h
                | some i' =>
                    simp only [Option.map_some'] at h
                    cases h
                    obtain ⟨kvs', h1, h2, h3⟩ := ih i' hr
                    refine ⟨kvs', h1, h2, fun j hj v hv => ?_⟩
                    cases j with
                    | zero =>
                        simp only [List.get?] at hv
                        cases hv
                        simpa [isNamed] using hm
                    | succ m =>
                        simp only [List.get?] at hv
                        exact h3 m (by omega) v hv

theorem locateContainer_none_spec (xs : List JVal) (n : String)
    (h : locateContainer xs n = .ok none) :
    ∀ j v, xs.get? j = some v → isNamed v n = false := by
  induction xs generalizing n with
  | nil => intro j v hv; simp [List.get?] at hv
  | cons x rest ih =>
      intro j v hv
      match x, h with
      | .obj kvs, h =>
          by_cases hm : pyEqB ((dictGet kvs "name").getD .null) (.str n) = true
          · rw [locateContainer, if_pos hm] at h
            cases h
          · rw [locateContainer, if_neg hm] at h
            cases hr : locateContainer rest n with
            | error e => rw [hr] at h; simp [Except.bind, bind] at h
            | ok r =>
                rw [hr] at h
                simp only [Except.bind, bind, pure, Except.pure] at h
                cases r with
                | some i' => simp at h
                | none =>
                    cases j with
                    | zero =>
                        simp only [List.get?] at hv
                        cases hv
                        simpa [isNamed] using hm
                    | succ m =>
                        simp only [List.get?] at hv
                        exact ih n hr m v hv

theorem findContainerKvs_set (xs : List JVal) (n : String) (i : Nat) (kf : PyDict)
    (hlt : i < xs.length)
    (hpre : ∀ j, j < i → ∀ v, xs.get? j = some v → isNamed v n = false)
    (hmatch : isNamed (.obj kf) n = true) :
    findContainerKvs (xs.set i (.obj kf)) n = some kf := by
  induction xs generalizing i with
  | nil => simp at hlt
  | cons x rest ih =>
      cases i with
      | zero =>
          simp only [List.set, findContainerKvs]
          rw [if_pos (by simpa [isNamed] using hmatch)]
      | succ m =>
          have hx : isNamed x n = false := hpre 0 (by omega) x rfl
          simp only [List.set]
          cases x with
          | obj kvs =>
              simp only [findContainerKvs]
              rw [if_neg (by simpa [isNamed] using hx)]
              exact ih m (by simpa using hlt)
                (fun j hj v hv => hpre (j + 1) (by omega) v hv) 
          | null => exact ih m (by simpa using hlt) (fun j hj v hv => hpre (j + 1) (by omega) v hv)
          | bool b => exact ih m (by simpa using hlt) (fun j hj v hv => hpre (j + 1) (by omega) v hv)
          | int k => exact ih m (by simpa using hlt) (fun j hj v hv => hpre (j + 1) (by omega) v hv)
          | str s => exact ih m (by simpa using hlt) (fun j hj v hv => hpre (j + 1) (by omega) v hv)
          | list l => exact ih m (by simpa using hlt) (fun j hj v hv => hpre (j + 1) (by omega) v hv)

def templateContainers (td : PyDict) : List JVal :=
  match (dictGet td "containerDefinitions").getD (.list []) with
  | .list xs => xs
  | _ => []

def tdPrepared (td0 : PyDict) : PyDict :=
  (dictSetdefault (dictSetdefault td0 "containerDefinitions" (.list [])).2
    "family" (.str "prefect")).2

theorem dictGet_setdefault_self (d : PyDict) (k : String) (v : JVal) :
    dictGet (dictSetdefault d k v).2 k = some ((dictGet d k).getD v) := by
  unfold dictSetdefault
  cases hd : dictGet d k with
  | some w => simp [hd]
  | none => simp [dictGet_append_single, hd]

theorem resolveCpu_prepared (cfg : ECSTaskSettings) (td0 : PyDict) :
    resolveCpu cfg (tdPrepared td0) = resolveCpu cfg td0 := by
  unfold resolveCpu tdPrepared
  rw [dictGet_setdefault_ne _ _ _ _ (by decide), dictGet_setdefault_ne _ _ _ _ (by decide)]

theorem resolveMemory_prepared (cfg : ECSTaskSettings) (td0 : PyDict) :
    resolveMemory cfg (tdPrepared td0) = resolveMemory cfg td0 := by
  unfold resolveMemory tdPrepared
  rw [dictGet_setdefault_ne _ _ _ _ (by decide), dictGet_setdefault_ne _ _ _ _ (by decide)]

theorem locateContainer_some_find (xs : List JVal) (n : String) (i : Nat)
    (h : locateContainer xs n = .ok (some i)) (kvs : PyDict)
    (hg : xs.get? i = some (.obj kvs)) :
    findContainerKvs xs n = some kvs := by
  induction xs generalizing i with
  | nil => simp [locateContainer] at h
  | cons x rest ih =>
      match x, h with
      | .obj kvs', h =>
          by_cases hm : pyEqB ((dictGet kvs' "name").getD .null) (.str n) = true
          · rw [locateContainer, if_pos hm] at h
            cases h
            simp only [List.get?] at hg
            cases hg
            simp [findContainerKvs, hm]
          · rw [locateContainer, if_neg hm] at h
            cases hr : locateContainer rest n with
            | error e => rw [hr] at h; simp [Except.bind, bind] at h
            | ok r =>
                rw [hr] at h
                simp only [Except.bind, bind, pure, Except.pure] at h
                cases r with
                | none => simp at h
                | some i' =>
                    simp only [Option.map_some'] at h
                    cases h
                    simp only [List.get?] at hg
                    simp only [findContainerKvs, if_neg hm]
                    exact ih i' hr hg

theorem locateContainer_none_find (xs : List JVal) (n : String)
    (h : locateContainer xs n = .ok none) :
    findContainerKvs xs n = none := by
  induction xs generalizing n with
  | nil => simp [findContainerKvs]
  | cons x rest ih =>
      match x, h with
      | .obj kvs', h =>
          by_cases hm : pyEqB ((dictGet kvs' "name").getD .null) (.str n) = true
          · rw [locateContainer, if_pos hm] at h
            cases h
          · rw [locateContainer, if_neg hm] at h
            cases hr : locateContainer rest n with
            | error e => rw [hr] at h; simp [Except.bind, bind] at h
            | ok r =>
                rw [hr] at h
                simp only [Except.bind, bind, pure, Except.pure] at h
                cases r with
                | some i' => simp at h
                | none =>
                    simp only [findContainerKvs, if_neg hm]
                    exact ih n hr

theorem ec2ContainerPlacement
    (cds3 cds4 cds5 : List JVal) (ci : Nat) (k3 : PyDict) (cpuv memv : Int)
    (hget : cds3.get? ci = some (.obj k3))
    (hmatch : isNamed (.obj k3) "prefect" = true)
    (hpre : ∀ j, j < ci → ∀ v, cds3.get? j = some v → isNamed v "prefect" = false)
    (hnocpu : dictGet k3 "cpu" = none) (hnomem : dictGet k3 "memory" = none)
    (h4 : modifyObjAt cds3 ci (fun c => (dictSetdefault c "cpu" (.int cpuv)).2) = .ok cds4)
    (h5 : modifyObjAt cds4 ci (fun c => (dictSetdefault c "memory" (.int memv)).2) = .ok cds5) :
    ∃ kvs, findContainerKvs cds5 "prefect" = some kvs
      ∧ dictGet kvs "cpu" = some (.int cpuv)
      ∧ dictGet kvs "memory" = some (.int memv) := by
  have hlt : ci < cds3.length := get?_some_lt _ _ _ hget
  rw [modifyObjAt_spec cds3 ci _ k3 hget] at h4
  injection h4 with h4
  subst h4
  rw [modifyObjAt_spec _ ci _ ((dictSetdefault k3 "cpu" (.int cpuv)).2)
    (get?_set_self _ _ _ (by simpa using hlt))] at h5
  rw [List.set_set] at h5
  injection h5 with h5
  subst h5
  refine ⟨_, findContainerKvs_set cds3 "prefect" ci _ hlt hpre ?_, ?_, ?_⟩
  · rw [isNamed_setdefault_ne _ _ _ _ (by decide),
      isNamed_setdefault_ne _ _ _ _ (by decide)]
    exact hmatch
  · rw [dictGet_setdefault_ne _ _ _ _ (by decide)]
    exact dictGet_setdefault_of_none _ _ _ hnocpu
  · apply dictGet_setdefault_of_none
    rw [dictGet_setdefault_ne _ _ _ _ (by decide)]
    exact hnomem

theorem branch_fargate_places (cfg : ECSTaskSettings) (tdIn : PyDict)
    (cds3 : List JVal) (ci : Nat) (tdOut : PyDict) (cds4 : List JVal)
    (h : prepareTaskDefinitionBranch cfg tdIn cds3 ci = Except.ok (tdOut, cds4))
    (hLT : cfg.launchType = some "FARGATE" ∨ cfg.launchType = some "FARGATE_SPOT") :
    dictGet tdOut "cpu" = some (.str (pyStr (resolveCpu cfg tdIn)))
    ∧ dictGet tdOut "memory" = some (.str (pyStr (resolveMemory cfg tdIn)))
    ∧ cds4 = cds3 := by
  unfold prepareTaskDefinitionBranch at h
  simp only [bind, Except.bind] at h
  rw [if_pos hLT] at h
  split at h
  · simp at h
  · rw [Except.ok.injEq, Prod.mk.injEq] at h
    obtain ⟨h1, h2⟩ := h
    subst h1
    rename_i v heq
    refine ⟨?_, ?_, h2.symm⟩
    all_goals split at heq
    case _ xs =>
      split at heq
      all_goals injection heq with heq
      all_goals subst heq
      · rw [dictGet_setdefault_ne _ _ _ _ (by decide),
          dictGet_setdefault_ne _ _ _ _ (by decide),
          dictGet_dictSet_ne _ _ _ _ (by decide), dictGet_dictSet_self]
      · rw [dictGet_setdefault_ne _ _ _ _ (by decide),
          dictGet_dictSet_ne _ _ _ _ (by decide),
          dictGet_setdefault_ne _ _ _ _ (by decide),
          dictGet_dictSet_ne _ _ _ _ (by decide), dictGet_dictSet_self]
    case _ s =>
      split at heq
      · injection heq with heq
        subst heq
        rw [dictGet_setdefault_ne _ _ _ _ (by decide),
          dictGet_setdefault_ne _ _ _ _ (by decide),
          dictGet_dictSet_ne _ _ _ _ (by decide), dictGet_dictSet_self]
      · simp at heq
    case _ => simp at heq
    case _ xs =>
      split at heq
      all_goals injection heq with heq
      all_goals subst heq
      · rw [dictGet_setdefault_ne _ _ _ _ (by decide),
          dictGet_setdefault_ne _ _ _ _ (by decide), dictGet_dictSet_self]
      · rw [dictGet_setdefault_ne _ _ _ _ (by decide),
          dictGet_dictSet_ne _ _ _ _ (by decide),
          dictGet_setdefault_ne _ _ _ _ (by decide), dictGet_dictSet_self]
    case _ s =>
      split at heq
      · injection heq with heq
        subst heq
        rw [dictGet_setdefault_ne _ _ _ _ (by decide),
          dictGet_setdefault_ne _ _ _ _ (by decide), dictGet_dictSet_self]
      · simp at heq
    case _ => simp at heq

theorem branch_ec2_modifies (cfg : ECSTaskSettings) (tdIn : PyDict)
    (cds3 : List JVal) (ci : Nat) (tdOut : PyDict) (cds4 : List JVal)
    (h : prepareTaskDefinitionBranch cfg tdIn cds3 ci = Except.ok (tdOut, cds4))
    (hEC2 : cfg.launchType = some "EC2") :
    tdOut = tdIn
    ∧ ∃ cpuv memv cdsMid,
        pyToInt (resolveCpu cfg tdIn) = .ok cpuv
        ∧ pyToInt (resolveMemory cfg tdIn) = .ok memv
        ∧ modifyObjAt cds3 ci (fun c => (dictSetdefault c "cpu" (.int cpuv)).2)
            = .ok cdsMid
        ∧ modifyObjAt cdsMid ci (fun c => (dictSetdefault c "memory" (.int memv)).2)
            = .ok cds4 := by
  unfold prepareTaskDefinitionBranch at h
  simp only [bind, Except.bind] at h
  rw [hEC2] at h
  rw [if_neg (by decide), if_pos rfl] at h
  cases hcpu : pyToInt (resolveCpu cfg tdIn) with
  | error e => rw [hcpu] at h; simp at h
  | ok cpuv =>
  rw [hcpu] at h
  dsimp only at h
  cases hmem : pyToInt (resolveMemory cfg tdIn) with
  | error e => rw [hmem] at h; simp at h
  | ok memv =>
  rw [hmem] at h
  dsimp only at h
  cases hmid : modifyObjAt cds3 ci (fun c => (dictSetdefault c "cpu" (.int cpuv)).2) with
  | error e => rw [hmid] at h; simp at h
  | ok cdsMid =>
  rw [hmid] at h
  dsimp only at h
  cases hout : modifyObjAt cdsMid ci (fun c => (dictSetdefault c "memory" (.int memv)).2) with
  | error e => rw [hout] at h; simp at h
  | ok cdsOut =>
  rw [hout] at h
  dsimp only at h
  rw [Except.ok.injEq, Prod.mk.injEq] at h
  obtain ⟨h1, h2⟩ := h
  exact ⟨h1.symm, cpuv, memv, cdsMid, rfl, rfl, hmid, h2 ▸ hout⟩

theorem finish_spec (cfg : ECSTaskSettings) (td : PyDict) (cds4 : List JVal)
    (td' : PyDict)
    (h : prepareTaskDefinitionFinish cfg td cds4 = Except.ok td') :
    dictGet td' "containerDefinitions" = some (.list cds4)
    ∧ ∀ k, k ≠ "containerDefinitions" → k ≠ "executionRoleArn"
        → dictGet td' k = dictGet td k := by
  unfold prepareTaskDefinitionFinish at h
  dsimp only at h
  split at h
  all_goals split at h
  any_goals simp at h
  all_goals subst h
  all_goals refine ⟨dictGet_dictSet_self _ _ _, fun k hk1 hk2 => ?_⟩
  · rw [dictGet_dictSet_ne _ _ _ _ (Ne.symm hk1),
      dictGet_dictSet_ne _ _ _ _ (Ne.symm hk2)]
  · rw [dictGet_dictSet_ne _ _ _ _ (Ne.symm hk1)]

theorem prepare_destruct (cfg : ECSTaskSettings) (td0 : PyDict) (region : String)
    (td' : PyDict)
    (h : prepareTaskDefinition cfg td0 region = Except.ok td') :
    ∃ (ci : Nat) (cds3 : List JVal) (tdOut : PyDict) (cds4 : List JVal) (k3 : PyDict),
      prepareTaskDefinitionBranch cfg (tdPrepared td0) cds3 ci = Except.ok (tdOut, cds4)
      ∧ prepareTaskDefinitionFinish cfg tdOut cds4 = Except.ok td'
      ∧ cds3.get? ci = some (.obj k3)
      ∧ isNamed (.obj k3) "prefect" = true
      ∧ (∀ j, j < ci → ∀ v, cds3.get? j = some v → isNamed v "prefect" = false)
      ∧ dictGet k3 "cpu"
          = (match findContainerKvs (templateContainers td0) "prefect" with
             | some k0 => dictGet k0 "cpu"
             | none => none)
      ∧ dictGet k3 "memory"
          = (match findContainerKvs (templateContainers td0) "prefect" with
             | some k0 => dictGet k0 "memory"
             | none => none) := by
  unfold prepareTaskDefinition at h
  simp only [bind, Except.bind, pure, Except.pure] at h
  rw [dictGet_setdefault_self] at h
  simp only [Option.getD_some] at h
  split at h
  · simp at h
  · rename_i cds0 heq0
    split at heq0
    case _ xs hsc =>
      injection heq0 with heq0
      subst heq0
      have htc : templateContainers td0 = xs := by
        unfold templateContainers
        rw [hsc]
      split at h
      · simp at h
      · rename_i idx hloc
        cases idx with
        | some i =>
            dsimp only at h
            obtain ⟨kvs0, hg0, hname0, hpre0⟩ := locateContainer_some_spec xs "prefect" i hloc
            have hfind := locateContainer_some_find xs "prefect" i hloc kvs0 hg0
            have hilt : i < xs.length := get?_some_lt _ _ _ hg0
            rw [modifyObjAt_spec xs i _ kvs0 hg0] at h
            dsimp only at h
            split at h
            · -- CloudWatch logging configured: one more container update
              rename_i hlogs
              rw [modifyObjAt_spec _ i _ (dictSet kvs0 "image" (.str cfg.image))
                (get?_set_self _ _ _ (by simpa using hilt))] at h
              rw [List.set_set] at h
              dsimp only at h
              split at h
              · simp at h
              · rename_i p hbr
                obtain ⟨tdOut, cds4⟩ := p
                refine ⟨i, _, tdOut, cds4, _, hbr, h, get?_set_self _ _ _ (by simpa using hilt), ?_, ?_, ?_, ?_⟩
                · rw [isNamed_dictSet_ne _ _ _ _ (by decide),
                    isNamed_dictSet_ne _ _ _ _ (by decide)]
                  exact hname0
                · intro j hj v hv
                  rw [get?_set_ne _ _ _ _ (by omega)] at hv
                  exact hpre0 j hj v hv
                · rw [dictGet_dictSet_ne _ _ _ _ (by decide),
                    dictGet_dictSet_ne _ _ _ _ (by decide), htc, hfind]
                · rw [dictGet_dictSet_ne _ _ _ _ (by decide),
                    dictGet_dictSet_ne _ _ _ _ (by decide), htc, hfind]
            · -- logging not configured
              split at h
              · simp at h
              · rename_i p hbr
                obtain ⟨tdOut, cds4⟩ := p
                refine ⟨i, _, tdOut, cds4, _, hbr, h, get?_set_self _ _ _ (by simpa using hilt), ?_, ?_, ?_, ?_⟩
                · rw [isNamed_dictSet_ne _ _ _ _ (by decide)]
                  exact hname0
                · intro j hj v hv
                  rw [get?_set_ne _ _ _ _ (by omega)] at hv
                  exact hpre0 j hj v hv
                · rw [dictGet_dictSet_ne _ _ _ _ (by decide), htc, hfind]
                · rw [dictGet_dictSet_ne _ _ _ _ (by decide), htc, hfind]
        | none =>
            dsimp only at h
            have hnone := locateContainer_none_spec xs "prefect" hloc
            have hfind := locateContainer_none_find xs "prefect" hloc
            have hg1 : (xs ++ [JVal.obj [("name", JVal.str "prefect")]]).get? xs.length
                = some (JVal.obj [("name", JVal.str "prefect")]) :=
              List.get?_concat_length xs _
            have hlt1 : xs.length < (xs ++ [JVal.obj [("name", JVal.str "prefect")]]).length := by
              simp
            rw [modifyObjAt_spec _ xs.length _ _ hg1] at h
            dsimp only at h
            have hpre1 : ∀ j, j < xs.length →
                ∀ v, (xs ++ [JVal.obj [("name", JVal.str "prefect")]]).get? j = some v
                → isNamed v "prefect" = false := by
              intro j hj v hv
              rw [List.get?_append hj] at hv
              exact hnone j v hv
            split at h
            · rename_i hlogs
              rw [modifyObjAt_spec _ xs.length _
                (dictSet [("name", JVal.str "prefect")] "image" (.str cfg.image))
                (get?_set_self _ _ _ (by simp))] at h
              rw [List.set_set] at h
              dsimp only at h
              split at h
              · simp at h
              · rename_i p hbr
                obtain ⟨tdOut, cds4⟩ := p
                refine ⟨xs.length, _, tdOut, cds4, _, hbr, h,
                  get?_set_self _ _ _ (by simp), ?_, ?_, ?_, ?_⟩
                · rw [isNamed_dictSet_ne _ _ _ _ (by decide),
                    isNamed_dictSet_ne _ _ _ _ (by decide)]
                  decide
                · intro j hj v hv
                  rw [get?_set_ne _ _ _ _ (by omega)] at hv
                  exact hpre1 j hj v hv
                · rw [dictGet_dictSet_ne _ _ _ _ (by decide),
                    dictGet_dictSet_ne _ _ _ _ (by decide), htc, hfind]
                  rfl
                · rw [dictGet_dictSet_ne _ _ _ _ (by decide),
                    dictGet_dictSet_ne _ _ _ _ (by decide), htc, hfind]
                  rfl
            · split at h
              · simp at h
              · rename_i p hbr
                obtain ⟨tdOut, cds4⟩ := p
                refine ⟨xs.length, _, tdOut, cds4, _, hbr, h,
                  get?_set_self _ _ _ (by simp), ?_, ?_, ?_, ?_⟩
                · rw [isNamed_dictSet_ne _ _ _ _ (by decide)]
                  decide
                · intro j hj v hv
                  rw [get?_set_ne _ _ _ _ (by omega)] at hv
                  exact hpre1 j hj v hv
                · rw [dictGet_dictSet_ne _ _ _ _ (by decide), htc, hfind]
                  rfl
                · rw [dictGet_dictSet_ne _ _ _ _ (by decide), htc, hfind]
                  rfl
    case _ x hsc => simp at heq0

/-- Claim C6: in every successfully built task definition, (1) under FARGATE
or FARGATE_SPOT the resolved cpu/memory land stringified at the task level;
(2) under EC2, when the template's orchestration container does not already
carry cpu/memory, the builder sets them on that container as integers (the
integer conversion of the resolved values); and (3) the resolution chain is
explicit value, else template value, else the defaults 1024 / 2048, for
every launch mode. -/
theorem claim_C6_launch_mode_resource_placement
    (cfg : ECSTaskSettings) (td0 : PyDict) (region : String) (td' : PyDict)
    (h : prepareTaskDefinition cfg td0 region = Except.ok td') :
    ((cfg.launchType = some "FARGATE" ∨ cfg.launchType = some "FARGATE_SPOT") →
        dictGet td' "cpu" = some (.str (pyStr (resolveCpu cfg td0)))
        ∧ dictGet td' "memory" = some (.str (pyStr (resolveMemory cfg td0))))
    ∧ (cfg.launchType = some "EC2" →
        (∀ kvs0, findContainerKvs (templateContainers td0) "prefect" = some kvs0
            → dictGet kvs0 "cpu" = none ∧ dictGet kvs0 "memory" = none)
        → ∃ cds' kvs cpuv memv,
            dictGet td' "containerDefinitions" = some (.list cds')
            ∧ findContainerKvs cds' "prefect" = some kvs
            ∧ dictGet kvs "cpu" = some (.int cpuv)
            ∧ dictGet kvs "memory" = some (.int memv)
            ∧ pyToInt (resolveCpu cfg td0) = .ok cpuv
            ∧ pyToInt (resolveMemory cfg td0) = .ok memv)
    ∧ ((cfg.cpu = none → dictGet td0 "cpu" = none → resolveCpu cfg td0 = .int 1024)
        ∧ (cfg.memory = none → dictGet td0 "memory" = none
            → resolveMemory cfg td0 = .int 2048)) := by
  obtain ⟨ci, cds3, tdOut, cds4, k3, hbr, hfin, hget, hname, hpre, hk3cpu, hk3mem⟩ :=
    prepare_destruct cfg td0 region td' h
  obtain ⟨hcd, hkeep⟩ := finish_spec cfg tdOut cds4 td' hfin
  refine ⟨?_, ?_, ?_, ?_⟩
  · intro hLT
    obtain ⟨hc, hm, _⟩ := branch_fargate_places cfg _ cds3 ci tdOut cds4 hbr hLT
    rw [resolveCpu_prepared] at hc
    rw [resolveMemory_prepared] at hm
    exact ⟨(hkeep "cpu" (by decide) (by decide)).trans hc,
           (hkeep "memory" (by decide) (by decide)).trans hm⟩
  · intro hEC2 hNoPrior
    obtain ⟨hOut, cpuv, memv, cdsMid, hcpu, hmem, hmid, hfin2⟩ :=
      branch_ec2_modifies cfg _ cds3 ci tdOut cds4 hbr hEC2
    have hnocpu : dictGet k3 "cpu" = none := by
      rw [hk3cpu]
      cases hf : findContainerKvs (templateContainers td0) "prefect" with
      | none => rfl
      | some k0 => exact (hNoPrior k0 hf).1
    have hnomem : dictGet k3 "memory" = none := by
      rw [hk3mem]
      cases hf : findContainerKvs (templateContainers td0) "prefect" with
      | none => rfl
      | some k0 => exact (hNoPrior k0 hf).2
    obtain ⟨kvs, hfind, hkc, hkm⟩ :=
      ec2ContainerPlacement cds3 cdsMid cds4 ci k3 cpuv memv hget hname hpre
        hnocpu hnomem hmid hfin2
    rw [resolveCpu_prepared] at hcpu
    rw [resolveMemory_prepared] at hmem
    exact ⟨cds4, kvs, cpuv, memv, hcd, hfind, hkc, hkm, hcpu, hmem⟩
  · intro h1 h2
    simp [resolveCpu, pyOrV, h1, h2]
  · intro h1 h2
    simp [resolveMemory, pyOrV, h1, h2]

/-- Settings matching the end-to-end scenario of the spec: image alpine,
FARGATE, no explicit cpu/memory, no logging. -/
def c6WitnessSettings : ECSTaskSettings :=
  ⟨"alpine", false, none, none, none, some "FARGATE", none, none⟩

/-- The document the builder produces for `c6WitnessSettings` and an empty
template. -/
def c6WitnessResult : PyDict :=
  [("containerDefinitions",
    .list [.obj [("name", .str "prefect"), ("image", .str "alpine")]]),
   ("family", .str "prefect"), ("cpu", .str "1024"), ("memory", .str "2048"),
   ("requiresCompatibilities", .list [.str "FARGATE"]),
   ("networkMode", .str "awsvpc")]

/-- Witness for claim C6 on the spec's end-to-end scenario: with no
explicit values and an empty template, the FARGATE document carries
cpu "1024" and memory "2048". -/
theorem claim_C6_launch_mode_resource_placement_witness :
    dictGet c6WitnessResult "cpu" = some (JVal.str "1024")
    ∧ dictGet c6WitnessResult "memory" = some (JVal.str "2048") := by
  have h := (claim_C6_launch_mode_resource_placement c6WitnessSettings [] "us-east-1"
    c6WitnessResult rfl).1 (Or.inl rfl)
  exact ⟨h.1, h.2⟩
